import Mathlib

/-!
# Event dispatch and resource lifecycle of the AngelScript module

A shallow embedding of `AngelScriptResource` (`src/resource.h`, `src/resource.cpp`)
and of the event registry `Helpers::Event` (`src/helpers/events.h`).

Pointers are handles (`Nat`); a nullable pointer is an `Option Handle`.
Every call the resource makes on the script engine is recorded in a trace of
`Call`s, each carrying the pointer it was made through, so that "which calls
happen, in which order, and on which object" can be stated and proved.
The answers of the script engine (return codes, return byte, what a running
script registers) come from an explicit `Script` oracle.
-/

namespace AngelScript

/-- Handle of an object living in the script engine (the address a pointer holds). -/
abbrev Handle := Nat

/-- Handle of a script function (`asIScriptFunction*`). -/
abbrev Func := Nat

/-- Host event category (`alt::CEvent::Type`). -/
abbrev EventType := Nat

/-- Return code `asEXECUTION_FINISHED` of `asIScriptContext::Execute`. -/
def asEXECUTION_FINISHED : Int := 0

/-- Return code `asEXECUTION_EXCEPTION` of `asIScriptContext::Execute`. -/
def asEXECUTION_EXCEPTION : Int := 3

/-- Modelled from the spec: the macro `CHECK_AS_RETURN(type, result, returnOnError)`
of `helpers/module.h`, which is not among the sources. It checks the engine return
code `r`, logs, and makes the enclosing function return `returnOnError` when the
code reports an error; engine error codes are the negative ones. The function
gives the test: `true` when the enclosing function returns early. -/
def CHECK_AS_RETURN (r : Int) : Bool := decide (r < 0)

/-- One timer entity (`Helpers::Timer{resource, callback, timeout, GetTime(), once}`). -/
structure Timer where
  callback : Func
  interval : Nat
  lastRun : Int
  once : Bool
  deriving DecidableEq, Repr

/-- The fields of `AngelScriptResource` (`resource.h`, 14-27) together with the four
type-descriptor pointers that `resource.cpp` (191-209) uses, which start as null
pointers like `module` and `context`. The map `timers` is a
list of (id, timer) entries with distinct ids; the two custom-handler multimaps are
lists of (name, group) entries, a group being the equal-key elements in the order
`equal_range` enumerates them. -/
structure AngelScriptResource where
  module : Option Handle := none
  context : Option Handle := none
  timers : List (Nat × Timer) := []
  invalidTimers : List Nat := []
  nextTimerId : Nat := 1
  eventHandlers : List (EventType × Func) := []
  customLocalEventHandlers : List (String × List Func) := []
  customRemoteEventHandlers : List (String × List Func) := []
  arrayStringTypeInfo : Option Handle := none
  arrayIntTypeInfo : Option Handle := none
  arrayUintTypeInfo : Option Handle := none
  arrayAnyTypeInfo : Option Handle := none
  deriving DecidableEq, Repr

/-- A call made on the script engine or the builder, with the pointer it goes through. -/
inductive Call where
  | StartNewModule
  | AddSectionFromMemory
  | BuildModule
  | GetModule
  | CreateContext
  | SetUserData (ctx : Option Handle)
  | GetFunctionByDecl (mod : Option Handle) (decl : String)
  | Discard (mod : Option Handle)
  | ContextRelease (ctx : Option Handle)
  | Prepare (ctx : Option Handle) (f : Func)
  | SetArgAddress (ctx : Option Handle) (i : Nat) (p : Handle)
  | SetArgObject (ctx : Option Handle) (i : Nat) (p : Handle)
  | Execute (ctx : Option Handle)
  | GetReturnByte (ctx : Option Handle)
  | GetArgs (type : EventType)
  | FuncRelease (f : Func)
  | GetTypeInfoByDecl (mod : Option Handle) (decl : String)
  | TypeInfoAddRef (t : Option Handle)
  | TypeInfoRelease (t : Option Handle)
  deriving DecidableEq, Repr

/-! ## Timers (`resource.h` 94-104) -/

/-- The call `timers.erase(id)` of `std::unordered_map`. -/
def mapErase (id : Nat) (m : List (Nat × Timer)) : List (Nat × Timer) :=
  m.filter (fun e => e.1 != id)

/-- The lookup `timers.find(id)` of `std::unordered_map`. -/
def mapFind (id : Nat) : List (Nat × Timer) → Option Timer
  | [] => none
  | e :: m => if e.1 = id then some e.2 else mapFind id m

/-- The assignment `timers[id] = t` of `std::unordered_map`: overwrites the entry of
`id` when there is one, adds an entry otherwise. -/
def mapAssign (id : Nat) (t : Timer) : List (Nat × Timer) → List (Nat × Timer)
  | [] => [(id, t)]
  | e :: m => if e.1 = id then (id, t) :: m else e :: mapAssign id t m

/-- The ids present in the timer table. -/
def mapKeys (m : List (Nat × Timer)) : List Nat := m.map Prod.fst

/-- `CreateTimer(timeout, callback, once)`; `now` is what `GetTime()` returns.
`nextTimerId` is a `uint32_t`, so the post-increment wraps modulo `2^32`. -/
def CreateTimer (r : AngelScriptResource) (timeout : Nat) (callback : Func) (once : Bool)
    (now : Int) : Nat × AngelScriptResource :=
  let id := r.nextTimerId
  (id, { r with
    nextTimerId := (r.nextTimerId + 1) % 2 ^ 32
    timers := mapAssign id ⟨callback, timeout, now, once⟩ r.timers })

/-- `RemoveTimer(id)`: `invalidTimers.emplace_back(id)`. -/
def RemoveTimer (r : AngelScriptResource) (id : Nat) : AngelScriptResource :=
  { r with invalidTimers := r.invalidTimers ++ [id] }

/-! ## Event handlers (`resource.h` 56-90) -/

/-- `RegisterEventHandler(event, handler)`: `eventHandlers.push_back`. -/
def RegisterEventHandler (r : AngelScriptResource) (event : EventType) (handler : Func) :
    AngelScriptResource :=
  { r with eventHandlers := r.eventHandlers ++ [(event, handler)] }

/-- `GetEventHandlers(event)`: the handlers whose type is `event`, in list order. -/
def GetEventHandlers (r : AngelScriptResource) (event : EventType) : List Func :=
  r.eventHandlers.foldl (fun events handler =>
    if handler.1 = event then events ++ [handler.2] else events) []

/-! ## Custom event handlers (`resource.h` 71-90)

`std::unordered_multimap` keeps the elements of one key adjacent, and `equal_range`
enumerates that group; where inside the group `insert` puts a new element is left to
the library. The placement is therefore a parameter `place`: given the group as it
is, the index at which the new element goes (clamped to the group's length). -/

/-- The call `insert({name, handler})` of `std::unordered_multimap`. -/
def multimapInsert (place : List Func → Nat) (name : String) (handler : Func) :
    List (String × List Func) → List (String × List Func)
  | [] => [(name, [handler])]
  | e :: m =>
    if e.1 = name then (e.1, List.insertIdx (min (place e.2) e.2.length) handler e.2) :: m
    else e :: multimapInsert place name handler m

/-- The call `equal_range(name)` of `std::unordered_multimap`, as the list of the
mapped values it spans. -/
def equalRange (name : String) : List (String × List Func) → List Func
  | [] => []
  | e :: m => if e.1 = name then e.2 else equalRange name m

/-- `RegisterCustomEventHandler(name, handler, local)`. -/
def RegisterCustomEventHandler (place : List Func → Nat) (r : AngelScriptResource)
    (name : String) (handler : Func) (loc : Bool) : AngelScriptResource :=
  if loc = true then
    { r with customLocalEventHandlers := multimapInsert place name handler r.customLocalEventHandlers }
  else
    { r with customRemoteEventHandlers := multimapInsert place name handler r.customRemoteEventHandlers }

/-- `GetCustomEventHandlers(name, local)`. -/
def GetCustomEventHandlers (r : AngelScriptResource) (name : String) (loc : Bool) : List Func :=
  if loc = true then equalRange name r.customLocalEventHandlers
  else equalRange name r.customRemoteEventHandlers

/-- A library that puts a new element at the end of its equal-key group. -/
def placeBack (g : List Func) : Nat := g.length

/-- A library that puts a new element right after the first element of its
equal-key group (what GNU libstdc++ does). -/
def placeAfterFirst (_g : List Func) : Nat := 1

/-! ## The script side -/

/-- What a running script may ask of its resource through the exposed API. -/
inductive ScriptAction where
  | registerEventHandler (event : EventType) (handler : Func)
  | createTimer (timeout : Nat) (callback : Func) (once : Bool) (now : Int)
  | removeTimer (id : Nat)
  deriving DecidableEq, Repr

/-- Effect of one script action on the resource. -/
def ScriptAction.apply (r : AngelScriptResource) : ScriptAction → AngelScriptResource
  | .registerEventHandler event handler => RegisterEventHandler r event handler
  | .createTimer timeout callback once now => (CreateTimer r timeout callback once now).2
  | .removeTimer id => RemoveTimer r id

/-- Effect of a sequence of script actions on the resource. -/
def runActions (r : AngelScriptResource) (as : List ScriptAction) : AngelScriptResource :=
  as.foldl ScriptAction.apply r

/-- The answers of the script engine for one compiled module: the return code of
`Prepare(f)`, the return code of `Execute()` once `f` is prepared, the byte
`GetReturnByte()` yields after `f`, what the script does to its resource while `f`
runs, and the lookups `GetFunctionByDecl` and `GetTypeInfoByDecl` of the module.
The outcome of running a function is taken to depend on the function only. -/
structure Script where
  prepare : Func → Int
  execute : Func → Int
  returnByte : Func → Nat
  actions : Func → List ScriptAction
  functionByDecl : String → Option Func
  typeInfoByDecl : String → Option Handle

/-! ## Event registry (`helpers/events.h`) -/

/-- A host event: its category and its payload. -/
structure CEvent where
  type : EventType
  payload : List Handle
  deriving DecidableEq, Repr

/-- The descriptor `Helpers::Event`. `returnType` is what `GetReturnType()` yields:
`resource.cpp` (114) calls that accessor, which `events.h` does not declare, so the
declared return type is a field of the descriptor here. -/
structure Event where
  callbackDecl : String
  returnType : String
  argsGetter : AngelScriptResource → CEvent → List (Handle × Bool)

/-- `Event::GetEvent(type)`: `all.find(type)`, `nullptr` when absent. -/
def GetEvent : List (EventType × Event) → EventType → Option Event
  | [], _ => none
  | e :: all, type => if e.1 = type then some e.2 else GetEvent all type

/-- The constructor `Event::Event(type, ...)`, whose body is `all.insert({type, this})`.
`std::unordered_map::insert` leaves the map as it is when the key is present. -/
def Event.register (all : List (EventType × Event)) (type : EventType) (e : Event) :
    List (EventType × Event) :=
  match GetEvent all type with
  | some _ => all
  | none => all ++ [(type, e)]

/-- `Event::GetArgs(resource, event)`. -/
def Event.GetArgs (e : Event) (r : AngelScriptResource) (ev : CEvent) : List (Handle × Bool) :=
  e.argsGetter r ev

/-! ## `OnEvent` (`resource.cpp` 104-137) -/

/-- The inner loop of `OnEvent` (121-126), from slot `i` on. The counter is an `int`;
argument lists are far shorter than `2^31`, so it is a natural number here. -/
def setArgs (ctx : Option Handle) : Nat → List (Handle × Bool) → List Call
  | _, [] => []
  | i, arg :: args =>
    (if arg.2 = true then Call.SetArgAddress ctx i arg.1 else Call.SetArgObject ctx i arg.1)
      :: setArgs ctx (i + 1) args

/-- The calls of one complete pass through the body of the loop of `OnEvent` for
`callback`: prepare, set every argument, execute. -/
def invoke (ctx : Option Handle) (args : List (Handle × Bool)) (callback : Func) : List Call :=
  Call.Prepare ctx callback :: setArgs ctx 0 args ++ [Call.Execute ctx]

/-- The loop over `callbacks` of `OnEvent` (117-136): result, resource afterwards,
calls made. -/
def dispatch (s : Script) (args : List (Handle × Bool)) (shouldReturn : Bool) :
    List Func → AngelScriptResource → Bool × AngelScriptResource × List Call
  | [], r => (true, r, [])
  | callback :: rest, r =>
    if CHECK_AS_RETURN (s.prepare callback) = true then
      (true, r, [Call.Prepare r.context callback])
    else
      let e := s.execute callback
      let r1 := runActions r (s.actions callback)
      if CHECK_AS_RETURN e = true then (true, r1, invoke r.context args callback)
      else if e = asEXECUTION_FINISHED ∧ shouldReturn = true then
        (decide (s.returnByte callback = 1), r1,
          invoke r.context args callback ++ [Call.GetReturnByte r1.context])
      else
        let out := dispatch s args shouldReturn rest r1
        (out.1, out.2.1, invoke r.context args callback ++ out.2.2)

/-- `OnEvent(ev)` against the registry `all`. -/
def OnEvent (all : List (EventType × Event)) (s : Script) (r : AngelScriptResource)
    (ev : CEvent) : Bool × AngelScriptResource × List Call :=
  match GetEvent all ev.type with
  | none => (true, r, [])
  | some event =>
    let callbacks := GetEventHandlers r ev.type
    let args := event.GetArgs r ev
    let shouldReturn := decide (event.returnType = "bool")
    let out := dispatch s args shouldReturn callbacks r
    (out.1, out.2.1, Call.GetArgs ev.type :: out.2.2)

/-! ## `OnTick` (`resource.cpp` 139-152)

`Helpers::Timer::Update` lives in `helpers/timer.h`, which is not among the sources;
`OnTick` takes it as a parameter: given a timer and the current time it yields the
boolean it returns and the timer as the call leaves it. `now i` is what the `i`-th
call of `GetTime()` inside the loop returns. What a timer's callback asks of the
resource while it runs is outside the model. -/

/-- The first loop of `OnTick`: `for (auto &id : invalidTimers) timers.erase(id)`. -/
def eraseInvalid (invalid : List Nat) (timers : List (Nat × Timer)) : List (Nat × Timer) :=
  invalid.foldl (fun m id => mapErase id m) timers

/-- The second loop of `OnTick`, from iteration `i` on: the table as the loop leaves
it, the ids handed to `RemoveTimer`, and the ids whose timer was updated. -/
def tickLoop (Update : Timer → Int → Bool × Timer) (now : Nat → Int) :
    Nat → List (Nat × Timer) → List (Nat × Timer) × List Nat × List Nat
  | _, [] => ([], [], [])
  | i, timer :: rest =>
    let u := Update timer.2 (now i)
    let out := tickLoop Update now (i + 1) rest
    ((timer.1, u.2) :: out.1, (if u.1 = true then out.2.1 else timer.1 :: out.2.1),
      timer.1 :: out.2.2)

/-- `OnTick()`: the resource afterwards and the ids whose timer was updated. -/
def OnTick (Update : Timer → Int → Bool × Timer) (now : Nat → Int)
    (r : AngelScriptResource) : AngelScriptResource × List Nat :=
  let out := tickLoop Update now 0 (eraseInvalid r.invalidTimers r.timers)
  ({ r with timers := out.1, invalidTimers := [] ++ out.2.1 }, out.2.2)

/-- Modelled from the spec: `Helpers::Timer::Update` of `helpers/timer.h`, which is
not among the sources. A timer whose timeout has elapsed fires, restarts its
interval, and reports exhaustion (returns `false`) exactly when it is one-shot;
a timer that is not due stays as it is and returns `true`. -/
def Timer.Update (t : Timer) (curTime : Int) : Bool × Timer :=
  if curTime - t.lastRun ≥ (t.interval : Int) then (!t.once, { t with lastRun := curTime })
  else (true, t)

/-- A timer workload: calls of `CreateTimer`, `RemoveTimer` and `OnTick`. -/
inductive TimerOp where
  | create (timeout : Nat) (callback : Func) (once : Bool) (now : Int)
  | remove (id : Nat)
  | tick (now : Nat → Int)

/-- Runs a timer workload: the resource afterwards and the ids the `CreateTimer`
calls returned, in call order. -/
def runTimerOps (Update : Timer → Int → Bool × Timer) :
    List TimerOp → AngelScriptResource × List Nat → AngelScriptResource × List Nat
  | [], st => st
  | .create timeout callback once now :: ops, st =>
    let c := CreateTimer st.1 timeout callback once now
    runTimerOps Update ops (c.2, st.2 ++ [c.1])
  | .remove id :: ops, st => runTimerOps Update ops (RemoveTimer st.1 id, st.2)
  | .tick now :: ops, st => runTimerOps Update ops ((OnTick Update now st.1).1, st.2)

/-- Number of `CreateTimer` calls in a workload. -/
def countCreates : List TimerOp → Nat
  | [] => 0
  | .create _ _ _ _ :: ops => countCreates ops + 1
  | _ :: ops => countCreates ops

/-! ## `Start` and `Stop` (`resource.cpp` 6-102, 154-209) -/

/-- What the script builder and the engine answer during `Start`: the return codes of
the three builder steps, the module `builder.GetModule()` yields and the context
`CreateContext()` yields. -/
structure Builder where
  startNewModule : Int
  addSectionFromMemory : Int
  buildModule : Int
  module : Handle
  context : Handle

/-- `RegisterMetadata(builder)`: its scanning loop is commented out, `mainFunc` stays
`nullptr`. -/
def RegisterMetadata : Option Func := none

/-- `RegisterTypeInfos()`. -/
def RegisterTypeInfos (s : Script) (r : AngelScriptResource) :
    AngelScriptResource × List Call :=
  let a := s.typeInfoByDecl "array<string>"
  let b := s.typeInfoByDecl "array<int>"
  let c := s.typeInfoByDecl "array<uint>"
  let d := s.typeInfoByDecl "array<any>"
  ({ r with arrayStringTypeInfo := a, arrayIntTypeInfo := b, arrayUintTypeInfo := c,
            arrayAnyTypeInfo := d },
   [Call.GetTypeInfoByDecl r.module "array<string>", Call.TypeInfoAddRef a,
    Call.GetTypeInfoByDecl r.module "array<int>", Call.TypeInfoAddRef b,
    Call.GetTypeInfoByDecl r.module "array<uint>", Call.TypeInfoAddRef c,
    Call.GetTypeInfoByDecl r.module "array<any>", Call.TypeInfoAddRef d])

/-- One line of `UnregisterTypeInfos()`: `if(p != nullptr) p->Release()`. -/
def releaseIfSet (p : Option Handle) : List Call :=
  if p ≠ none then [Call.TypeInfoRelease p] else []

/-- `UnregisterTypeInfos()`. -/
def UnregisterTypeInfos (r : AngelScriptResource) : List Call :=
  releaseIfSet r.arrayStringTypeInfo ++ releaseIfSet r.arrayIntTypeInfo
    ++ releaseIfSet r.arrayUintTypeInfo ++ releaseIfSet r.arrayAnyTypeInfo

/-- Lines 27-28 of `Start()`: `module = builder.GetModule()` and
`context = CreateContext()`. -/
def attach (b : Builder) (r : AngelScriptResource) : AngelScriptResource :=
  { r with module := some b.module, context := some b.context }

/-- `Start()`: result, resource afterwards, calls made. -/
def Start (b : Builder) (s : Script) (r : AngelScriptResource) :
    Bool × AngelScriptResource × List Call :=
  if CHECK_AS_RETURN b.startNewModule = true then (false, r, [Call.StartNewModule])
  else if CHECK_AS_RETURN b.addSectionFromMemory = true then
    (false, r, [Call.StartNewModule, Call.AddSectionFromMemory])
  else if CHECK_AS_RETURN b.buildModule = true then
    (false, r, [Call.StartNewModule, Call.AddSectionFromMemory, Call.BuildModule])
  else
    let r1 := attach b r
    let built := [Call.StartNewModule, Call.AddSectionFromMemory, Call.BuildModule,
      Call.GetModule, Call.CreateContext, Call.SetUserData r1.context]
    let lookup : Option Func × List Call :=
      match RegisterMetadata with
      | some f => (some f, [])
      | none => (s.functionByDecl "void Start()",
          [Call.GetFunctionByDecl r1.module "void Start()"])
    match lookup.1 with
    | none =>
      (false, r1, built ++ lookup.2 ++ [Call.Discard r1.module, Call.ContextRelease r1.context])
    | some func =>
      if CHECK_AS_RETURN (s.prepare func) = true then
        (false, r1, built ++ lookup.2 ++ [Call.Prepare r1.context func])
      else
        let r2 := runActions r1 (s.actions func)
        let reg := RegisterTypeInfos s r2
        (true, reg.1, built ++ lookup.2
          ++ [Call.Prepare r1.context func, Call.Execute r1.context] ++ reg.2)

/-- The first block of `Stop()` (79-90): whether `CHECK_AS_RETURN` left the function,
the resource afterwards, calls made. -/
def stopScript (s : Script) (r : AngelScriptResource) :
    Bool × AngelScriptResource × List Call :=
  if r.module ≠ none then
    let func := s.functionByDecl "void Stop()"
    let looked := [Call.GetFunctionByDecl r.module "void Stop()"]
    match func with
    | some f =>
      if r.context ≠ none then
        if CHECK_AS_RETURN (s.prepare f) = true then
          (true, r, looked ++ [Call.Prepare r.context f])
        else
          let r1 := runActions r (s.actions f)
          (false, r1, looked ++ [Call.Prepare r.context f, Call.Execute r.context,
            Call.Discard r1.module])
      else (false, r, looked ++ [Call.Discard r.module])
    | none => (false, r, looked ++ [Call.Discard r.module])
  else (false, r, [])

/-- The rest of `Stop()` (92-99): release of the context, of every event handler, and
of the type descriptors. -/
def stopRelease (r : AngelScriptResource) : List Call :=
  (if r.context ≠ none then [Call.ContextRelease r.context] else [])
    ++ r.eventHandlers.map (fun pair => Call.FuncRelease pair.2)
    ++ UnregisterTypeInfos r

/-- `Stop()`: result, resource afterwards, calls made. -/
def Stop (s : Script) (r : AngelScriptResource) : Bool × AngelScriptResource × List Call :=
  let blk := stopScript s r
  if blk.1 = true then (false, blk.2.1, blk.2.2)
  else (true, blk.2.1, blk.2.2 ++ stopRelease blk.2.1)

/-! ## Object lifetime along a trace -/

/-- An engine object reached through a pointer. -/
inductive Obj where
  | module (h : Handle)
  | context (h : Handle)
  | typeInfo (h : Handle)
  deriving DecidableEq, Repr

/-- The pointer a call dereferences: `none` when it dereferences none, `some none`
when it goes through a null pointer. -/
def Call.receiver : Call → Option (Option Obj)
  | .SetUserData ctx => some (ctx.map Obj.context)
  | .GetFunctionByDecl mod _ => some (mod.map Obj.module)
  | .Discard mod => some (mod.map Obj.module)
  | .ContextRelease ctx => some (ctx.map Obj.context)
  | .Prepare ctx _ => some (ctx.map Obj.context)
  | .SetArgAddress ctx _ _ => some (ctx.map Obj.context)
  | .SetArgObject ctx _ _ => some (ctx.map Obj.context)
  | .Execute ctx => some (ctx.map Obj.context)
  | .GetReturnByte ctx => some (ctx.map Obj.context)
  | .GetTypeInfoByDecl mod _ => some (mod.map Obj.module)
  | .TypeInfoAddRef t => some (t.map Obj.typeInfo)
  | .TypeInfoRelease t => some (t.map Obj.typeInfo)
  | _ => none

/-- The object a call destroys: `Discard` invalidates the module, `Release` of the
resource's only reference destroys the context. -/
def Call.destroys : Call → Option Obj
  | .Discard (some m) => some (Obj.module m)
  | .ContextRelease (some c) => some (Obj.context c)
  | _ => none

/-- A trace is safe when no call goes through a null pointer or through a pointer to
an object that `dead` lists or that an earlier call of the trace destroyed. -/
def safeTrace (dead : List Obj) : List Call → Bool
  | [] => true
  | c :: cs =>
    (match c.receiver with
      | none => true
      | some none => false
      | some (some o) => !(dead.contains o))
    && safeTrace ((c.destroys.map (fun o => [o])).getD [] ++ dead) cs

/-- The objects a trace destroys. -/
def destroyed (tr : List Call) : List Obj := tr.filterMap Call.destroys

/-! ## Concrete scenarios -/

/-- The resource after the script's callbacks of `pre` ran, one after the other. -/
def afterCallbacks (s : Script) (r : AngelScriptResource) (pre : List Func) :
    AngelScriptResource :=
  pre.foldl (fun acc f => runActions acc (s.actions f)) r

/-- `RegisterEventHandler` called for each pair of `regs`, in order. -/
def registerAll (r : AngelScriptResource) (regs : List (EventType × Func)) :
    AngelScriptResource :=
  regs.foldl (fun acc p => RegisterEventHandler acc p.1 p.2) r

/-- A descriptor with the given return type whose marshalling yields one primitive
and one object argument taken from the payload. -/
def sampleEvent (returnType : String) : Event :=
  { callbackDecl := "int a, Player@ p"
    returnType := returnType
    argsGetter := fun _ ev => [(ev.payload.headD 0, true), (ev.payload.getD 1 0, false)] }

/-- A running resource (module 1, context 2) with callbacks `10` then `20` bound to
category `7`, and `30` bound to category `8`. -/
def sampleResource : AngelScriptResource :=
  registerAll { module := some 1, context := some 2 } [(7, 10), (8, 30), (7, 20)]

/-- The host event of category `7` with payload `[100, 200]`. -/
def sampleCEvent : CEvent := { type := 7, payload := [100, 200] }

/-- A script in which every callback prepares and finishes; callback `10` returns
byte `0` (false), every other callback byte `1` (true). -/
def scriptAB : Script :=
  { prepare := fun _ => 0
    execute := fun _ => asEXECUTION_FINISHED
    returnByte := fun f => if f = 10 then 0 else 1
    actions := fun _ => []
    functionByDecl := fun _ => none
    typeInfoByDecl := fun _ => none }

/-- A script in which preparing callback `10` fails with `asCONTEXT_ACTIVE` (-2);
callback `20` prepares, finishes and returns byte `0` (false). -/
def scriptFailFirst : Script :=
  { prepare := fun f => if f = 10 then -2 else 0
    execute := fun f => if f = 10 then -2 else asEXECUTION_FINISHED
    returnByte := fun _ => 0
    actions := fun _ => []
    functionByDecl := fun _ => none
    typeInfoByDecl := fun _ => none }

/-- `RegisterCustomEventHandler` called for each (name, handler, local) of `regs`, in
order, with the library placement `place`. -/
def registerCustomAll (place : List Func → Nat) (r : AngelScriptResource)
    (regs : List (String × Func × Bool)) : AngelScriptResource :=
  regs.foldl (fun acc p => RegisterCustomEventHandler place acc p.1 p.2.1 p.2.2) r

/-- The handlers of `regs` registered under `name` with locality `loc`, in
registration order. -/
def registeredFor (regs : List (String × Func × Bool)) (name : String) (loc : Bool) :
    List Func :=
  (regs.filter (fun p => decide (p.1 = name) && decide (p.2.2 = loc))).map (fun p => p.2.1)

/-- A workload of `n` calls of `CreateTimer` and nothing else. -/
def createOnly (n : Nat) : List TimerOp :=
  List.replicate n (TimerOp.create 100 5 false 0)

/-- The state the timer theorems start from: a fresh resource and no id returned yet. -/
def freshTimers : AngelScriptResource × List Nat := ({}, [])

/-- A fresh resource in which one one-shot timer with timeout 100 ms was created at
time 0. -/
def oneShotResource : AngelScriptResource := (CreateTimer {} 100 5 true 0).2

/-- A builder whose three steps succeed and that yields module 1 and context 2. -/
def builderOk : Builder :=
  { startNewModule := 0, addSectionFromMemory := 0, buildModule := 0, module := 1, context := 2 }

/-- The four array type descriptors of a module, as handles 11 to 14. -/
def arrayTypeInfos (decl : String) : Option Handle :=
  if decl = "array<string>" then some 11
  else if decl = "array<int>" then some 12
  else if decl = "array<uint>" then some 13
  else if decl = "array<any>" then some 14
  else none

/-- A script with `void Start()` (function 1, which binds callback 10 to category 7)
and `void Stop()` (function 2); `stopPrepare` is the code `Prepare` returns for the
stop function, every other call succeeds. -/
def scriptStartStop (stopPrepare : Int) : Script :=
  { prepare := fun f => if f = 2 then stopPrepare else 0
    execute := fun _ => asEXECUTION_FINISHED
    returnByte := fun _ => 0
    actions := fun f => if f = 1 then [ScriptAction.registerEventHandler 7 10] else []
    functionByDecl := fun decl =>
      if decl = "void Start()" then some 1
      else if decl = "void Stop()" then some 2 else none
    typeInfoByDecl := arrayTypeInfos }

/-- A script that compiles but has no `void Start()` (and no `void Stop()`). -/
def scriptNoEntry : Script :=
  { prepare := fun _ => 0
    execute := fun _ => asEXECUTION_FINISHED
    returnByte := fun _ => 0
    actions := fun _ => []
    functionByDecl := fun _ => none
    typeInfoByDecl := arrayTypeInfos }

/-- A script in which callback `10` ends with a script exception
(`asEXECUTION_EXCEPTION`) and every other callback finishes. -/
def scriptExceptionFirst : Script :=
  { prepare := fun _ => 0
    execute := fun f => if f = 10 then asEXECUTION_EXCEPTION else asEXECUTION_FINISHED
    returnByte := fun _ => 1
    actions := fun _ => []
    functionByDecl := fun _ => none
    typeInfoByDecl := fun _ => none }

end AngelScript

/-! # Theorems -/

namespace AngelScript

/-! ## Event handlers and `OnEvent` -/

theorem apply_context (r : AngelScriptResource) (a : ScriptAction) :
    (a.apply r).context = r.context := by
  cases a <;> rfl

theorem runActions_context (as : List ScriptAction) (r : AngelScriptResource) :
    (runActions r as).context = r.context := by
  induction as generalizing r with
  | nil => rfl
  | cons a as ih =>
    show (runActions (a.apply r) as).context = r.context
    rw [ih, apply_context]

theorem runActions_module (as : List ScriptAction) (r : AngelScriptResource) :
    (runActions r as).module = r.module := by
  induction as generalizing r with
  | nil => rfl
  | cons a as ih =>
    show (runActions (a.apply r) as).module = r.module
    rw [ih]
    cases a <;> rfl

theorem afterCallbacks_context (s : Script) (pre : List Func) (r : AngelScriptResource) :
    (afterCallbacks s r pre).context = r.context := by
  induction pre generalizing r with
  | nil => rfl
  | cons f pre ih =>
    show (afterCallbacks s (runActions r (s.actions f)) pre).context = r.context
    rw [ih, runActions_context]

theorem foldl_handlers (event : EventType) (l : List (EventType × Func)) (acc : List Func) :
    l.foldl (fun events handler =>
      if handler.1 = event then events ++ [handler.2] else events) acc
      = acc ++ (l.filter (fun p => decide (p.1 = event))).map Prod.snd := by
  induction l generalizing acc with
  | nil => simp
  | cons h l ih =>
    simp only [List.foldl_cons]
    rw [ih]
    by_cases hh : h.1 = event <;> simp [hh, List.filter_cons]

theorem GetEventHandlers_eq (r : AngelScriptResource) (event : EventType) :
    GetEventHandlers r event
      = (r.eventHandlers.filter (fun p => decide (p.1 = event))).map Prod.snd := by
  unfold GetEventHandlers
  rw [foldl_handlers]
  simp

theorem registerAll_eventHandlers (regs : List (EventType × Func)) (r : AngelScriptResource) :
    (registerAll r regs).eventHandlers = r.eventHandlers ++ regs := by
  induction regs generalizing r with
  | nil => simp [registerAll]
  | cons p regs ih =>
    show (registerAll (RegisterEventHandler r p.1 p.2) regs).eventHandlers = _
    rw [ih]
    simp [RegisterEventHandler]

theorem GetEventHandlers_registerAll (regs : List (EventType × Func)) (r : AngelScriptResource)
    (event : EventType) :
    GetEventHandlers (registerAll r regs) event
      = GetEventHandlers r event
        ++ (regs.filter (fun p => decide (p.1 = event))).map Prod.snd := by
  simp [GetEventHandlers_eq, registerAll_eventHandlers]

/-- A callback that passes the loop body of `dispatch` without ending the loop. -/
theorem dispatch_passing (s : Script) (args : List (Handle × Bool)) (shouldReturn : Bool)
    (pre rest : List Func) (r : AngelScriptResource)
    (hpre : ∀ f ∈ pre, CHECK_AS_RETURN (s.prepare f) = false
      ∧ CHECK_AS_RETURN (s.execute f) = false
      ∧ ¬ (s.execute f = asEXECUTION_FINISHED ∧ shouldReturn = true)) :
    dispatch s args shouldReturn (pre ++ rest) r
      = ((dispatch s args shouldReturn rest (afterCallbacks s r pre)).1,
         (dispatch s args shouldReturn rest (afterCallbacks s r pre)).2.1,
         pre.flatMap (invoke r.context args)
           ++ (dispatch s args shouldReturn rest (afterCallbacks s r pre)).2.2) := by
  induction pre generalizing r with
  | nil => simp [afterCallbacks]
  | cons f pre ih =>
    have hf := hpre f (List.mem_cons_self f pre)
    have hrest : ∀ g ∈ pre, CHECK_AS_RETURN (s.prepare g) = false
        ∧ CHECK_AS_RETURN (s.execute g) = false
        ∧ ¬ (s.execute g = asEXECUTION_FINISHED ∧ shouldReturn = true) :=
      fun g hg => hpre g (List.mem_cons_of_mem f hg)
    have step := ih (runActions r (s.actions f)) hrest
    simp only [List.cons_append, dispatch, hf.1, hf.2.1, hf.2.2, if_false, Bool.false_eq_true]
    rw [show pre.append rest = pre ++ rest from rfl, step, runActions_context]
    simp [afterCallbacks, List.flatMap_cons]

theorem check_false_iff (x : Int) : CHECK_AS_RETURN x = false ↔ 0 ≤ x := by
  simp [CHECK_AS_RETURN]

theorem check_true_iff (x : Int) : CHECK_AS_RETURN x = true ↔ x < 0 := by
  simp [CHECK_AS_RETURN]

/-- `OnEvent` once the callbacks of `pre` have passed without ending the loop. -/
theorem OnEvent_split (all : List (EventType × Event)) (s : Script) (r : AngelScriptResource)
    (ev : CEvent) (event : Event) (pre rest : List Func)
    (hev : GetEvent all ev.type = some event)
    (hsplit : GetEventHandlers r ev.type = pre ++ rest)
    (hpre : ∀ f ∈ pre, CHECK_AS_RETURN (s.prepare f) = false
      ∧ CHECK_AS_RETURN (s.execute f) = false
      ∧ ¬ (s.execute f = asEXECUTION_FINISHED ∧ decide (event.returnType = "bool") = true)) :
    OnEvent all s r ev
      = ((dispatch s (event.GetArgs r ev) (decide (event.returnType = "bool")) rest
            (afterCallbacks s r pre)).1,
         (dispatch s (event.GetArgs r ev) (decide (event.returnType = "bool")) rest
            (afterCallbacks s r pre)).2.1,
         Call.GetArgs ev.type :: (pre.flatMap (invoke r.context (event.GetArgs r ev))
           ++ (dispatch s (event.GetArgs r ev) (decide (event.returnType = "bool")) rest
            (afterCallbacks s r pre)).2.2)) := by
  simp only [OnEvent, hev, hsplit]
  rw [dispatch_passing s _ _ pre rest r hpre]

/-- C6: for a host event whose category has no descriptor in the registry, `OnEvent`
returns true, leaves the resource (handler lists, timers and all other fields) as it
was, and makes no call at all on the script side: no argument is marshalled and no
callback is prepared or executed, whatever callbacks are bound to the category. -/
theorem OnEvent_unknown_category (all : List (EventType × Event)) (s : Script)
    (r : AngelScriptResource) (ev : CEvent) (h : GetEvent all ev.type = none) :
    OnEvent all s r ev = (true, r, []) := by
  simp only [OnEvent, h]

theorem OnEvent_unknown_category_witness :
    GetEventHandlers sampleResource sampleCEvent.type = [10, 20]
    ∧ OnEvent [(8, sampleEvent "bool")] scriptAB sampleResource sampleCEvent
        = (true, sampleResource, []) :=
  ⟨by decide, OnEvent_unknown_category [(8, sampleEvent "bool")] scriptAB sampleResource
    sampleCEvent (by simp [GetEvent, sampleCEvent])⟩

/-- C1 (amended): for an event category whose descriptor declares a boolean return,
`OnEvent` goes through the bound callbacks in registration order (`GetEventHandlers`
yields them in the order of the `RegisterEventHandler` calls for the category) and
stops at the first callback that either completes normally (`Execute` returns
`asEXECUTION_FINISHED`), whose boolean result it returns (true exactly when the
return byte is 1), or reports an engine error from `Prepare` or `Execute` (a negative
code), in which case it returns true; no later callback is invoked. With no callback
bound, or when every callback runs without error and without completing normally,
`OnEvent` returns true after invoking all of them once, in order. -/
theorem OnEvent_bool_first_decisive (all : List (EventType × Event)) (s : Script)
    (r : AngelScriptResource) (ev : CEvent) (event : Event) (pre rest : List Func)
    (hev : GetEvent all ev.type = some event) (hbool : event.returnType = "bool")
    (hsplit : GetEventHandlers r ev.type = pre ++ rest)
    (hpre : ∀ f ∈ pre, 0 ≤ s.prepare f ∧ 0 ≤ s.execute f
      ∧ s.execute f ≠ asEXECUTION_FINISHED) :
    (∀ regs : List (EventType × Func),
      GetEventHandlers (registerAll r regs) ev.type
        = GetEventHandlers r ev.type
          ++ (regs.filter (fun p => decide (p.1 = ev.type))).map Prod.snd)
    ∧ (rest = [] →
        (OnEvent all s r ev).1 = true
        ∧ (OnEvent all s r ev).2.2
            = Call.GetArgs ev.type :: pre.flatMap (invoke r.context (event.GetArgs r ev)))
    ∧ (∀ c post, rest = c :: post →
        (0 ≤ s.prepare c → s.execute c = asEXECUTION_FINISHED →
          (OnEvent all s r ev).1 = decide (s.returnByte c = 1)
          ∧ (OnEvent all s r ev).2.2
              = Call.GetArgs ev.type :: (pre.flatMap (invoke r.context (event.GetArgs r ev))
                  ++ invoke r.context (event.GetArgs r ev) c
                  ++ [Call.GetReturnByte r.context]))
        ∧ (s.prepare c < 0 →
          (OnEvent all s r ev).1 = true
          ∧ (OnEvent all s r ev).2.2
              = Call.GetArgs ev.type :: (pre.flatMap (invoke r.context (event.GetArgs r ev))
                  ++ [Call.Prepare r.context c]))
        ∧ (0 ≤ s.prepare c → s.execute c < 0 →
          (OnEvent all s r ev).1 = true
          ∧ (OnEvent all s r ev).2.2
              = Call.GetArgs ev.type :: (pre.flatMap (invoke r.context (event.GetArgs r ev))
                  ++ invoke r.context (event.GetArgs r ev) c))) := by
  have hpre' : ∀ f ∈ pre, CHECK_AS_RETURN (s.prepare f) = false
      ∧ CHECK_AS_RETURN (s.execute f) = false
      ∧ ¬ (s.execute f = asEXECUTION_FINISHED ∧ decide (event.returnType = "bool") = true) :=
    fun f hf => ⟨(check_false_iff _).2 (hpre f hf).1, (check_false_iff _).2 (hpre f hf).2.1,
      fun h => (hpre f hf).2.2 h.1⟩
  have key := OnEvent_split all s r ev event pre rest hev hsplit hpre'
  have hctx := afterCallbacks_context s pre r
  refine ⟨fun regs => GetEventHandlers_registerAll regs r ev.type, ?_, ?_⟩
  · intro hrest
    subst hrest
    rw [key]
    simp [dispatch]
  · intro c post hrest
    subst hrest
    refine ⟨?_, ?_, ?_⟩
    · intro hp he
      have h1 := (check_false_iff _).2 hp
      have h2 : CHECK_AS_RETURN asEXECUTION_FINISHED = false := rfl
      rw [key]
      simp [dispatch, h1, h2, he, hbool, hctx, runActions_context]
    · intro hp
      have h1 := (check_true_iff _).2 hp
      rw [key]
      simp [dispatch, h1, hctx]
    · intro hp he
      have h1 := (check_false_iff _).2 hp
      have h2 := (check_true_iff _).2 he
      rw [key]
      simp [dispatch, h1, h2, hctx]

theorem OnEvent_bool_first_decisive_witness :
    GetEventHandlers sampleResource sampleCEvent.type = [10, 20]
    ∧ (OnEvent [(7, sampleEvent "bool")] scriptAB sampleResource sampleCEvent).1 = false
    ∧ (OnEvent [(7, sampleEvent "bool")] scriptAB sampleResource sampleCEvent).2.2
        = [Call.GetArgs 7, Call.Prepare (some 2) 10, Call.SetArgAddress (some 2) 0 100,
           Call.SetArgObject (some 2) 1 200, Call.Execute (some 2),
           Call.GetReturnByte (some 2)] := by
  have h := ((OnEvent_bool_first_decisive [(7, sampleEvent "bool")] scriptAB sampleResource
    sampleCEvent (sampleEvent "bool") [] [10, 20] (by simp [GetEvent, sampleCEvent]) rfl
    (by decide) (by simp)).2.2 10 [20] rfl).1 (by decide) rfl
  exact ⟨by decide, h.1.trans (by decide), h.2.trans (by decide)⟩

/-- C1 as stated fails: callback `10` is bound first and its `Prepare` reports an
engine error, callback `20` is the first whose execution completes normally and it
returns false; `OnEvent` returns true, not the result of `20`, and never prepares
`20`. -/
theorem OnEvent_bool_not_first_finished :
    GetEventHandlers sampleResource sampleCEvent.type = [10, 20]
    ∧ scriptFailFirst.prepare 10 < 0
    ∧ (0 ≤ scriptFailFirst.prepare 20 ∧ scriptFailFirst.execute 20 = asEXECUTION_FINISHED)
    ∧ (OnEvent [(7, sampleEvent "bool")] scriptFailFirst sampleResource sampleCEvent).1
        ≠ decide (scriptFailFirst.returnByte 20 = 1)
    ∧ Call.Prepare (some 2) 20
        ∉ (OnEvent [(7, sampleEvent "bool")] scriptFailFirst sampleResource sampleCEvent).2.2 := by
  decide

theorem setArgs_getElem? (ctx : Option Handle) (args : List (Handle × Bool)) (k i : Nat) :
    (setArgs ctx k args)[i]?
      = args[i]?.map (fun arg =>
          if arg.2 = true then Call.SetArgAddress ctx (k + i) arg.1
          else Call.SetArgObject ctx (k + i) arg.1) := by
  induction args generalizing k i with
  | nil => simp [setArgs]
  | cons a args ih =>
    cases i with
    | zero => simp [setArgs]
    | succ i =>
      simp only [setArgs, List.getElem?_cons_succ]
      rw [ih (k + 1) i]
      have : k + 1 + i = k + (i + 1) := by omega
      rw [this]

theorem setArgs_length (ctx : Option Handle) (args : List (Handle × Bool)) (k : Nat) :
    (setArgs ctx k args).length = args.length := by
  induction args generalizing k with
  | nil => rfl
  | cons a args ih => simp [setArgs, ih]

/-- C10 (amended): for an event category whose descriptor declares no boolean return,
`OnEvent` marshals the arguments once and then goes through the bound callbacks in
registration order, preparing the callback, setting argument slot `i` from the
`i`-th marshalled pair (by address when its is-primitive flag is true, as an object
otherwise) and executing it, and returns true. A callback whose execution ends with
a non-negative code (a script exception included) does not keep the later ones from
running; when `Prepare` or `Execute` of a callback reports an engine error (a
negative code), `OnEvent` returns true at once and the later callbacks are not
invoked. When no callback reports an error, every bound callback is prepared and
executed exactly once. -/
theorem OnEvent_void_dispatch (all : List (EventType × Event)) (s : Script)
    (r : AngelScriptResource) (ev : CEvent) (event : Event) (pre rest : List Func)
    (hev : GetEvent all ev.type = some event) (hvoid : event.returnType ≠ "bool")
    (hsplit : GetEventHandlers r ev.type = pre ++ rest)
    (hpre : ∀ f ∈ pre, 0 ≤ s.prepare f ∧ 0 ≤ s.execute f) :
    (rest = [] →
        (OnEvent all s r ev).1 = true
        ∧ (OnEvent all s r ev).2.2
            = Call.GetArgs ev.type
              :: (GetEventHandlers r ev.type).flatMap (invoke r.context (event.GetArgs r ev)))
    ∧ (∀ c post, rest = c :: post →
        (s.prepare c < 0 →
          (OnEvent all s r ev).1 = true
          ∧ (OnEvent all s r ev).2.2
              = Call.GetArgs ev.type :: (pre.flatMap (invoke r.context (event.GetArgs r ev))
                  ++ [Call.Prepare r.context c]))
        ∧ (0 ≤ s.prepare c → s.execute c < 0 →
          (OnEvent all s r ev).1 = true
          ∧ (OnEvent all s r ev).2.2
              = Call.GetArgs ev.type :: (pre.flatMap (invoke r.context (event.GetArgs r ev))
                  ++ invoke r.context (event.GetArgs r ev) c)))
    ∧ (∀ (f : Func) (i : Nat) (arg : Handle × Bool), (event.GetArgs r ev)[i]? = some arg →
        (invoke r.context (event.GetArgs r ev) f)[i + 1]?
          = some (if arg.2 = true then Call.SetArgAddress r.context i arg.1
                  else Call.SetArgObject r.context i arg.1))
    ∧ (∀ f : Func, (invoke r.context (event.GetArgs r ev) f).length
        = (event.GetArgs r ev).length + 2) := by
  have hpre' : ∀ f ∈ pre, CHECK_AS_RETURN (s.prepare f) = false
      ∧ CHECK_AS_RETURN (s.execute f) = false
      ∧ ¬ (s.execute f = asEXECUTION_FINISHED ∧ decide (event.returnType = "bool") = true) :=
    fun f hf => ⟨(check_false_iff _).2 (hpre f hf).1, (check_false_iff _).2 (hpre f hf).2,
      fun h => hvoid (of_decide_eq_true h.2)⟩
  have key := OnEvent_split all s r ev event pre rest hev hsplit hpre'
  have hctx := afterCallbacks_context s pre r
  refine ⟨?_, ?_, ?_, ?_⟩
  · intro hrest
    subst hrest
    rw [key, hsplit]
    simp [dispatch]
  · intro c post hrest
    subst hrest
    refine ⟨?_, ?_⟩
    · intro hp
      have h1 := (check_true_iff _).2 hp
      rw [key]
      simp [dispatch, h1, hctx]
    · intro hp he
      have h1 := (check_false_iff _).2 hp
      have h2 := (check_true_iff _).2 he
      rw [key]
      simp [dispatch, h1, h2, hctx]
  · intro f i arg harg
    have hlen : i < (setArgs r.context 0 (event.GetArgs r ev)).length := by
      rw [setArgs_length]
      exact (List.getElem?_eq_some_iff.1 harg).1
    simp only [invoke, List.cons_append, List.getElem?_cons_succ]
    rw [List.getElem?_append_left hlen, setArgs_getElem?, harg]
    simp
  · intro f
    simp [invoke, setArgs_length]

theorem OnEvent_void_dispatch_witness :
    GetEventHandlers sampleResource sampleCEvent.type = [10, 20]
    ∧ scriptExceptionFirst.execute 10 = asEXECUTION_EXCEPTION
    ∧ (OnEvent [(7, sampleEvent "void")] scriptExceptionFirst sampleResource sampleCEvent).1
        = true
    ∧ (OnEvent [(7, sampleEvent "void")] scriptExceptionFirst sampleResource sampleCEvent).2.2
        = [Call.GetArgs 7,
           Call.Prepare (some 2) 10, Call.SetArgAddress (some 2) 0 100,
           Call.SetArgObject (some 2) 1 200, Call.Execute (some 2),
           Call.Prepare (some 2) 20, Call.SetArgAddress (some 2) 0 100,
           Call.SetArgObject (some 2) 1 200, Call.Execute (some 2)] := by
  have h := (OnEvent_void_dispatch [(7, sampleEvent "void")] scriptExceptionFirst
    sampleResource sampleCEvent (sampleEvent "void") [10, 20] []
    (by simp [GetEvent, sampleCEvent]) (by decide) (by decide) (by decide)).1 rfl
  exact ⟨by decide, by decide, h.1, h.2.trans (by decide)⟩

/-- C10 as stated fails: with callbacks `10` then `20` bound to a category without
boolean return and `Prepare` of `10` reporting an engine error, `OnEvent` returns
without ever preparing or executing `20`: the failure is not isolated. -/
theorem OnEvent_void_failure_not_isolated :
    GetEventHandlers sampleResource sampleCEvent.type = [10, 20]
    ∧ (OnEvent [(7, sampleEvent "void")] scriptFailFirst sampleResource sampleCEvent).2.2
        = [Call.GetArgs 7, Call.Prepare (some 2) 10]
    ∧ ¬ (∀ f ∈ GetEventHandlers sampleResource sampleCEvent.type,
          List.count (Call.Prepare (some 2) f)
            (OnEvent [(7, sampleEvent "void")] scriptFailFirst sampleResource sampleCEvent).2.2
            = 1) := by
  decide

/-! ## Event registry -/

theorem GetEvent_append (all : List (EventType × Event)) (type t : EventType) (e : Event) :
    GetEvent (all ++ [(type, e)]) t
      = match GetEvent all t with
        | some d => some d
        | none => if type = t then some e else none := by
  induction all with
  | nil => simp [GetEvent]
  | cons h all ih =>
    by_cases hh : h.1 = t
    · simp [GetEvent, hh]
    · simp [GetEvent, hh, ih]

/-- C5 (amended): registering a category that is already in the registry is not
rejected; it is accepted without any effect, so the registry keeps the descriptor of
the first registration and lookup returns that one. For a category not yet in the
registry, lookup after register returns exactly the descriptor passed. Registering
one category never changes what lookup returns for another. -/
theorem register_then_lookup (all : List (EventType × Event)) (type : EventType) (e : Event) :
    (GetEvent all type = none → GetEvent (Event.register all type e) type = some e)
    ∧ (∀ first, GetEvent all type = some first →
        Event.register all type e = all
        ∧ GetEvent (Event.register all type e) type = some first)
    ∧ (∀ t, t ≠ type → GetEvent (Event.register all type e) t = GetEvent all t) := by
  refine ⟨?_, ?_, ?_⟩
  · intro h
    simp [Event.register, h, GetEvent_append]
  · intro first h
    simp [Event.register, h]
  · intro t ht
    unfold Event.register
    cases h : GetEvent all type with
    | some d => rfl
    | none =>
      simp only [GetEvent_append]
      cases GetEvent all t with
      | some d => rfl
      | none => simp [Ne.symm ht]

theorem register_then_lookup_witness :
    (GetEvent (Event.register [] 7 (sampleEvent "bool")) 7).map Event.returnType = some "bool"
    ∧ (GetEvent (Event.register [(7, sampleEvent "bool")] 7 (sampleEvent "void")) 7).map
        Event.returnType = some "bool" := by
  have h := register_then_lookup [] 7 (sampleEvent "bool")
  have h2 := register_then_lookup [(7, sampleEvent "bool")] 7 (sampleEvent "void")
  refine ⟨?_, ?_⟩
  · rw [h.1 rfl]; rfl
  · rw [(h2.2.1 (sampleEvent "bool") (by simp [GetEvent])).2]; rfl

/-- C5 as stated fails: a second registration of category `7` completes, it is not
rejected, and lookup afterwards returns the descriptor of the first registration,
not the one passed to the second. -/
theorem register_twice_not_rejected :
    Event.register (Event.register [] 7 (sampleEvent "bool")) 7 (sampleEvent "void")
        = Event.register [] 7 (sampleEvent "bool")
    ∧ (GetEvent (Event.register (Event.register [] 7 (sampleEvent "bool")) 7
          (sampleEvent "void")) 7).map Event.returnType
        ≠ some (sampleEvent "void").returnType := by
  refine ⟨rfl, ?_⟩
  decide

/-! ## Custom event handlers -/

theorem equalRange_multimapInsert (place : List Func → Nat) (name n : String) (h : Func)
    (m : List (String × List Func)) :
    equalRange n (multimapInsert place name h m)
      = if n = name then
          List.insertIdx (min (place (equalRange name m)) (equalRange name m).length) h
            (equalRange name m)
        else equalRange n m := by
  induction m with
  | nil =>
    by_cases hn : n = name
    · simp [multimapInsert, equalRange, hn]
    · simp [multimapInsert, equalRange, hn, Ne.symm hn]
  | cons e m ih =>
    by_cases he : e.1 = name
    · by_cases hn : n = name
      · simp [multimapInsert, equalRange, he, hn]
      · have : ¬ name = n := Ne.symm hn
        simp [multimapInsert, equalRange, he, hn, this]
    · by_cases hn : n = name
      · subst hn
        simp [multimapInsert, equalRange, he, ih]
      · by_cases hen : e.1 = n
        · simp [multimapInsert, equalRange, he, hn, hen]
        · simp [multimapInsert, equalRange, he, hn, hen, ih]

/-- One registration, seen through `GetCustomEventHandlers`. -/
theorem GetCustom_register (place : List Func → Nat) (r : AngelScriptResource)
    (name n : String) (h : Func) (loc l : Bool) :
    GetCustomEventHandlers (RegisterCustomEventHandler place r name h loc) n l
      = if n = name ∧ l = loc then
          List.insertIdx (min (place (GetCustomEventHandlers r n l))
            (GetCustomEventHandlers r n l).length) h (GetCustomEventHandlers r n l)
        else GetCustomEventHandlers r n l := by
  cases loc <;> cases l <;> by_cases hn : n = name <;>
    simp [GetCustomEventHandlers, RegisterCustomEventHandler, equalRange_multimapInsert, hn]

theorem GetCustom_registerAll_perm (place : List Func → Nat)
    (regs : List (String × Func × Bool)) (r : AngelScriptResource) (n : String) (l : Bool) :
    List.Perm (GetCustomEventHandlers (registerCustomAll place r regs) n l)
      (GetCustomEventHandlers r n l ++ registeredFor regs n l) := by
  induction regs generalizing r with
  | nil => simp [registerCustomAll, registeredFor]
  | cons p regs ih =>
    have step := ih (RegisterCustomEventHandler place r p.1 p.2.1 p.2.2)
    have hunfold : registerCustomAll place r (p :: regs)
        = registerCustomAll place (RegisterCustomEventHandler place r p.1 p.2.1 p.2.2) regs := rfl
    rw [hunfold]
    refine step.trans ?_
    rw [GetCustom_register]
    by_cases hp : n = p.1 ∧ l = p.2.2
    · have hf : registeredFor (p :: regs) n l = p.2.1 :: registeredFor regs n l := by
        simp [registeredFor, List.filter_cons, hp.1.symm, hp.2.symm]
      rw [if_pos hp, hf]
      have hins := List.perm_insertIdx p.2.1 (GetCustomEventHandlers r n l)
        (Nat.min_le_right (place (GetCustomEventHandlers r n l))
          (GetCustomEventHandlers r n l).length)
      refine (List.Perm.append_right _ hins).trans ?_
      simpa using (@List.perm_middle _ p.2.1 (GetCustomEventHandlers r n l)
        (registeredFor regs n l)).symm
    · have hf : registeredFor (p :: regs) n l = registeredFor regs n l := by
        have : ¬ (p.1 = n ∧ p.2.2 = l) := fun h => hp ⟨h.1.symm, h.2.symm⟩
        simp only [registeredFor, List.filter_cons]
        simp [this]
      rw [if_neg hp, hf]

theorem GetCustom_registerAll_placeBack (regs : List (String × Func × Bool))
    (r : AngelScriptResource) (n : String) (l : Bool) :
    GetCustomEventHandlers (registerCustomAll placeBack r regs) n l
      = GetCustomEventHandlers r n l ++ registeredFor regs n l := by
  induction regs generalizing r with
  | nil => simp [registerCustomAll, registeredFor]
  | cons p regs ih =>
    have step := ih (RegisterCustomEventHandler placeBack r p.1 p.2.1 p.2.2)
    have hunfold : registerCustomAll placeBack r (p :: regs)
        = registerCustomAll placeBack
            (RegisterCustomEventHandler placeBack r p.1 p.2.1 p.2.2) regs := rfl
    rw [hunfold, step, GetCustom_register]
    by_cases hp : n = p.1 ∧ l = p.2.2
    · have hf : registeredFor (p :: regs) n l = p.2.1 :: registeredFor regs n l := by
        simp [registeredFor, List.filter_cons, hp.1.symm, hp.2.symm]
      rw [if_pos hp, hf]
      simp [placeBack, List.insertIdx_length_self]
    · have hf : registeredFor (p :: regs) n l = registeredFor regs n l := by
        have : ¬ (p.1 = n ∧ p.2.2 = l) := fun h => hp ⟨h.1.symm, h.2.symm⟩
        simp only [registeredFor, List.filter_cons]
        simp [this]
      rw [if_neg hp, hf]

/-- C9 (amended): for every event name and locality flag, and wherever the library
places a new element inside its equal-key group, `GetCustomEventHandlers(name, local)`
returns exactly the callbacks registered through `RegisterCustomEventHandler` with
that name and that locality, each once (a permutation of them); handlers registered
under another name or the other locality are never returned. The order is the one
the library's placement gives: it is the registration order when the library puts a
new element at the end of its group. Three handlers registered for local "Foo" are
returned as those three, once each. -/
theorem GetCustomEventHandlers_registered (place : List Func → Nat)
    (regs : List (String × Func × Bool)) (name : String) (loc : Bool) :
    List.Perm (GetCustomEventHandlers (registerCustomAll place {} regs) name loc)
      (registeredFor regs name loc)
    ∧ GetCustomEventHandlers (registerCustomAll placeBack {} regs) name loc
        = registeredFor regs name loc
    ∧ List.Perm (GetCustomEventHandlers (registerCustomAll place {}
          [("Foo", 1, true), ("Bar", 9, true), ("Foo", 2, true), ("Foo", 8, false),
           ("Foo", 3, true)]) "Foo" true) [1, 2, 3] := by
  refine ⟨?_, ?_, ?_⟩
  · simpa [GetCustomEventHandlers, equalRange] using
      GetCustom_registerAll_perm place regs {} name loc
  · simpa [GetCustomEventHandlers, equalRange] using
      GetCustom_registerAll_placeBack regs {} name loc
  · simpa [GetCustomEventHandlers, equalRange, registeredFor] using
      GetCustom_registerAll_perm place
        [("Foo", 1, true), ("Bar", 9, true), ("Foo", 2, true), ("Foo", 8, false),
         ("Foo", 3, true)] {} "Foo" true

/-- C9 as stated fails: with a library that puts a new element right after the first
element of its equal-key group, three handlers registered for local "Foo" in the
order 1, 2, 3 come back as 1, 3, 2, not in registration order. -/
theorem GetCustomEventHandlers_not_in_order :
    GetCustomEventHandlers (registerCustomAll placeAfterFirst {}
        [("Foo", 1, true), ("Foo", 2, true), ("Foo", 3, true)]) "Foo" true = [1, 3, 2]
    ∧ GetCustomEventHandlers (registerCustomAll placeAfterFirst {}
        [("Foo", 1, true), ("Foo", 2, true), ("Foo", 3, true)]) "Foo" true
      ≠ registeredFor [("Foo", 1, true), ("Foo", 2, true), ("Foo", 3, true)] "Foo" true := by
  decide

/-! ## Timers -/

theorem mem_mapKeys_mapAssign (id k : Nat) (t : Timer) (m : List (Nat × Timer))
    (h : k ∈ mapKeys (mapAssign id t m)) : k = id ∨ k ∈ mapKeys m := by
  induction m with
  | nil =>
    simp [mapAssign, mapKeys] at h
    exact Or.inl h
  | cons e m ih =>
    by_cases he : e.1 = id
    · simp [mapAssign, mapKeys, he] at h
      rcases h with h | h
      · exact Or.inl h
      · right
        simp only [mapKeys, List.map_cons, List.mem_cons]
        right
        simpa [mapKeys] using h
    · simp only [mapAssign, he, if_false, mapKeys, List.map_cons, List.mem_cons] at h
      rcases h with h | h
      · right
        simp [mapKeys, h]
      · rcases ih (by simpa [mapKeys] using h) with h' | h'
        · exact Or.inl h'
        · right
          simp only [mapKeys, List.map_cons, List.mem_cons]
          right
          simpa [mapKeys] using h'

theorem mapFind_mapAssign (id : Nat) (t : Timer) (m : List (Nat × Timer)) :
    mapFind id (mapAssign id t m) = some t := by
  induction m with
  | nil => simp [mapAssign, mapFind]
  | cons e m ih =>
    by_cases he : e.1 = id
    · simp [mapAssign, mapFind, he]
    · simp [mapAssign, mapFind, he, ih]

theorem mem_eraseInvalid (invalid : List Nat) (m : List (Nat × Timer)) (e : Nat × Timer) :
    e ∈ eraseInvalid invalid m ↔ e ∈ m ∧ e.1 ∉ invalid := by
  induction invalid generalizing m with
  | nil => simp [eraseInvalid]
  | cons id invalid ih =>
    have hunfold : eraseInvalid (id :: invalid) m = eraseInvalid invalid (mapErase id m) := rfl
    rw [hunfold, ih]
    simp only [mapErase, List.mem_filter, List.mem_cons, not_or, bne_iff_ne, ne_eq]
    tauto

theorem mem_mapKeys_eraseInvalid (invalid : List Nat) (m : List (Nat × Timer)) (k : Nat) :
    k ∈ mapKeys (eraseInvalid invalid m) ↔ k ∈ mapKeys m ∧ k ∉ invalid := by
  simp only [mapKeys, List.mem_map]
  constructor
  · rintro ⟨e, he, rfl⟩
    have := (mem_eraseInvalid invalid m e).1 he
    exact ⟨⟨e, this.1, rfl⟩, this.2⟩
  · rintro ⟨⟨e, he, rfl⟩, hk⟩
    exact ⟨e, (mem_eraseInvalid invalid m e).2 ⟨he, hk⟩, rfl⟩

theorem tickLoop_keys (Update : Timer → Int → Bool × Timer) (now : Nat → Int) (i : Nat)
    (m : List (Nat × Timer)) :
    mapKeys (tickLoop Update now i m).1 = mapKeys m
    ∧ (tickLoop Update now i m).2.2 = mapKeys m := by
  induction m generalizing i with
  | nil => simp [tickLoop, mapKeys]
  | cons e m ih =>
    have h := ih (i + 1)
    simp only [mapKeys] at h
    simp [tickLoop, mapKeys, h.1, h.2]

theorem tickLoop_queues (Update : Timer → Int → Bool × Timer) (now : Nat → Int) (i j : Nat)
    (m : List (Nat × Timer)) (id : Nat) (t : Timer) (hj : m[j]? = some (id, t))
    (hu : (Update t (now (i + j))).1 = false) :
    id ∈ (tickLoop Update now i m).2.1 := by
  induction m generalizing i j with
  | nil => simp at hj
  | cons e m ih =>
    cases j with
    | zero =>
      simp only [List.getElem?_cons_zero, Option.some.injEq] at hj
      subst hj
      simp only [Nat.add_zero] at hu
      simp [tickLoop, hu]
    | succ j =>
      simp only [List.getElem?_cons_succ] at hj
      have hu' : (Update t (now (i + 1 + j))).1 = false := by
        have : i + 1 + j = i + (j + 1) := by omega
        rw [this]; exact hu
      have := ih (i + 1) j hj hu'
      simp only [tickLoop]
      split
      · exact this
      · exact List.mem_cons_of_mem _ this

theorem OnTick_keys (Update : Timer → Int → Bool × Timer) (now : Nat → Int)
    (r : AngelScriptResource) :
    mapKeys (OnTick Update now r).1.timers = mapKeys (eraseInvalid r.invalidTimers r.timers)
    ∧ (OnTick Update now r).2 = mapKeys (eraseInvalid r.invalidTimers r.timers) := by
  have h := tickLoop_keys Update now 0 (eraseInvalid r.invalidTimers r.timers)
  exact ⟨h.1, h.2⟩

theorem pow32 : (2 : Nat) ^ 32 = 4294967296 := by norm_num

/-- Along any workload the id counter is one more than the number of `CreateTimer`
calls, modulo `2^32`; as long as that number stays below `2^32`, the ids returned
are `1, 2, ...` in order and every id in the table is one of them. -/
theorem runTimerOps_inv (Update : Timer → Int → Bool × Timer) (ops : List TimerOp)
    (st : AngelScriptResource × List Nat) (k : Nat)
    (hnext : st.1.nextTimerId = (1 + k) % 2 ^ 32)
    (hids : k < 2 ^ 32 → st.2 = List.range' 1 k
      ∧ ∀ id ∈ mapKeys st.1.timers, 1 ≤ id ∧ id ≤ k) :
    (runTimerOps Update ops st).1.nextTimerId = (1 + (k + countCreates ops)) % 2 ^ 32
    ∧ (k + countCreates ops < 2 ^ 32 →
        (runTimerOps Update ops st).2 = List.range' 1 (k + countCreates ops)
        ∧ ∀ id ∈ mapKeys (runTimerOps Update ops st).1.timers,
            1 ≤ id ∧ id ≤ k + countCreates ops) := by
  induction ops generalizing st k with
  | nil => exact ⟨hnext, hids⟩
  | cons op ops ih =>
    cases op with
    | create timeout callback once now =>
      have hcount : k + countCreates (TimerOp.create timeout callback once now :: ops)
          = (k + 1) + countCreates ops := by
        simp only [countCreates]; omega
      rw [hcount]
      refine ih (CreateTimer st.1 timeout callback once now |>.2,
        st.2 ++ [(CreateTimer st.1 timeout callback once now).1]) (k + 1) ?_ ?_
      · simp only [CreateTimer, hnext, pow32]
        omega
      · intro hk
        have hk' : k < 2 ^ 32 := by omega
        have hid : st.1.nextTimerId = 1 + k := by
          rw [hnext, pow32]
          rw [pow32] at hk
          omega
        refine ⟨?_, ?_⟩
        · simp only [CreateTimer, hid, (hids hk').1, List.range'_concat, Nat.one_mul]
        · intro id hmem
          simp only [CreateTimer] at hmem
          rcases mem_mapKeys_mapAssign _ _ _ _ hmem with h | h
          · rw [h, hid]; omega
          · have := (hids hk').2 id h
            omega
    | remove id =>
      exact ih (RemoveTimer st.1 id, st.2) k hnext hids
    | tick now =>
      refine ih ((OnTick Update now st.1).1, st.2) k hnext ?_
      intro hk
      refine ⟨(hids hk).1, ?_⟩
      intro id hmem
      have hkeys := (OnTick_keys Update now st.1).1
      simp only at hmem
      rw [hkeys] at hmem
      exact (hids hk).2 id ((mem_mapKeys_eraseInvalid _ _ _).1 hmem).1

theorem CreateTimer_fst (r : AngelScriptResource) (timeout : Nat) (callback : Func)
    (once : Bool) (now : Int) :
    (CreateTimer r timeout callback once now).1 = r.nextTimerId := rfl

theorem countCreates_createOnly (n : Nat) : countCreates (createOnly n) = n := by
  induction n with
  | zero => rfl
  | succ n ih =>
    show countCreates (TimerOp.create 100 5 false 0 :: createOnly n) = n + 1
    simp [countCreates, ih]

/-- C7 (amended): timer ids are sequential starting at 1 as long as fewer than `2^32`
timers were created: on a fresh resource, for every `n` with `1 ≤ n < 2^32`, and
whatever `RemoveTimer` and `OnTick` calls come in between, the `n`-th call of
`CreateTimer` returns `n` and stores the new timer in the table under that id; the
ids returned before it are `1, ..., n-1`, all strictly smaller, and `n` is not the id
of any timer still in the table. -/
theorem CreateTimer_nth_returns_n (Update : Timer → Int → Bool × Timer)
    (ops : List TimerOp) (n timeout : Nat) (callback : Func) (once : Bool) (now : Int)
    (hn : countCreates ops + 1 = n) (hlt : n < 2 ^ 32) :
    (CreateTimer (runTimerOps Update ops freshTimers).1 timeout callback once now).1 = n
    ∧ mapFind n (CreateTimer (runTimerOps Update ops freshTimers).1 timeout callback once
        now).2.timers = some ⟨callback, timeout, now, once⟩
    ∧ (runTimerOps Update ops freshTimers).2 = List.range' 1 (n - 1)
    ∧ (∀ id ∈ (runTimerOps Update ops freshTimers).2, id < n)
    ∧ n ∉ mapKeys (runTimerOps Update ops freshTimers).1.timers := by
  have inv := runTimerOps_inv Update ops freshTimers 0 (by simp [freshTimers])
    (by intro _; simp [freshTimers, mapKeys])
  simp only [Nat.zero_add] at inv
  have hc : countCreates ops < 2 ^ 32 := by omega
  have hnext : (runTimerOps Update ops freshTimers).1.nextTimerId = n := by
    rw [inv.1, pow32]
    rw [pow32] at hlt
    omega
  have hids := (inv.2 hc).1
  have hkeys := (inv.2 hc).2
  have hn1 : n - 1 = countCreates ops := by omega
  refine ⟨hnext, ?_, ?_, ?_, ?_⟩
  · simp only [CreateTimer, hnext]
    exact mapFind_mapAssign _ _ _
  · rw [hn1]; exact hids
  · intro id hid
    rw [hids] at hid
    have := List.mem_range'_1.1 hid
    omega
  · intro hmem
    have := hkeys n hmem
    omega

theorem CreateTimer_nth_returns_n_witness :
    (CreateTimer (runTimerOps Timer.Update
        [TimerOp.create 100 5 true 0, TimerOp.create 50 6 false 0, TimerOp.remove 2,
         TimerOp.tick (fun _ => 150), TimerOp.create 10 7 false 150] freshTimers).1
        20 8 false 160).1 = 4
    ∧ (runTimerOps Timer.Update
        [TimerOp.create 100 5 true 0, TimerOp.create 50 6 false 0, TimerOp.remove 2,
         TimerOp.tick (fun _ => 150), TimerOp.create 10 7 false 150] freshTimers).2
        = [1, 2, 3] := by
  have h := CreateTimer_nth_returns_n Timer.Update
    [TimerOp.create 100 5 true 0, TimerOp.create 50 6 false 0, TimerOp.remove 2,
     TimerOp.tick (fun _ => 150), TimerOp.create 10 7 false 150] 4 20 8 false 160 rfl
    (by norm_num)
  exact ⟨h.1, h.2.2.1⟩

/-- C7 as stated fails at `n = 2^32`: the id counter is a 32-bit unsigned integer, so
after `2^32 - 1` calls it has wrapped to 0, and the `2^32`-th call of `CreateTimer`
on a fresh resource returns 0, which is neither `2^32` nor greater than the ids
returned before. -/
theorem CreateTimer_id_wraps :
    countCreates (createOnly (2 ^ 32 - 1)) + 1 = 2 ^ 32
    ∧ (CreateTimer (runTimerOps Timer.Update (createOnly (2 ^ 32 - 1)) freshTimers).1
        100 5 false 0).1 = 0
    ∧ (CreateTimer (runTimerOps Timer.Update (createOnly (2 ^ 32 - 1)) freshTimers).1
        100 5 false 0).1 ≠ 2 ^ 32 := by
  have inv := (runTimerOps_inv Timer.Update (createOnly (2 ^ 32 - 1)) freshTimers 0
    (by simp [freshTimers]) (by intro _; simp [freshTimers, mapKeys])).1
  rw [countCreates_createOnly] at inv
  have h0 : (CreateTimer (runTimerOps Timer.Update (createOnly (2 ^ 32 - 1)) freshTimers).1
      100 5 false 0).1 = 0 := by
    rw [CreateTimer_fst, inv]
    norm_num
  refine ⟨?_, h0, ?_⟩
  · rw [countCreates_createOnly]; norm_num
  · rw [h0]; norm_num

/-- C8: timer removal is deferred. `RemoveTimer(id)` leaves the timer table as it is
and only appends `id` to the pending-invalidation list. A timer whose `Update`
reports exhaustion during an `OnTick` is queued the same way: after that `OnTick`
its id is pending and still in the table, whose ids the update loop does not change.
Every id that is pending when an `OnTick` starts is erased before the update loop,
so its timer is not updated in that `OnTick` and is absent from the table after it;
in particular a timer that reported exhaustion in one `OnTick` is absent after the
following one. -/
theorem timer_removal_deferred (Update : Timer → Int → Bool × Timer) (now now2 : Nat → Int)
    (r : AngelScriptResource) :
    (∀ id, (RemoveTimer r id).timers = r.timers
        ∧ (RemoveTimer r id).invalidTimers = r.invalidTimers ++ [id]
        ∧ id ∉ mapKeys (OnTick Update now (RemoveTimer r id)).1.timers
        ∧ id ∉ (OnTick Update now (RemoveTimer r id)).2)
    ∧ (∀ id ∈ r.invalidTimers,
        id ∉ mapKeys (OnTick Update now r).1.timers ∧ id ∉ (OnTick Update now r).2)
    ∧ mapKeys (OnTick Update now r).1.timers
        = mapKeys (eraseInvalid r.invalidTimers r.timers)
    ∧ (∀ (i id : Nat) (t : Timer),
        (eraseInvalid r.invalidTimers r.timers)[i]? = some (id, t) →
        (Update t (now i)).1 = false →
          id ∈ (OnTick Update now r).1.invalidTimers
          ∧ id ∈ mapKeys (OnTick Update now r).1.timers
          ∧ id ∉ mapKeys (OnTick Update now2 (OnTick Update now r).1).1.timers
          ∧ id ∉ (OnTick Update now2 (OnTick Update now r).1).2) := by
  have erased : ∀ (nw : Nat → Int) (q : AngelScriptResource) (id : Nat),
      id ∈ q.invalidTimers →
      id ∉ mapKeys (OnTick Update nw q).1.timers ∧ id ∉ (OnTick Update nw q).2 := by
    intro nw q id hid
    have hk := OnTick_keys Update nw q
    rw [hk.1, hk.2]
    have : id ∉ mapKeys (eraseInvalid q.invalidTimers q.timers) :=
      fun h => ((mem_mapKeys_eraseInvalid _ _ _).1 h).2 hid
    exact ⟨this, this⟩
  refine ⟨?_, ?_, (OnTick_keys Update now r).1, ?_⟩
  · intro id
    have h := erased now (RemoveTimer r id) id (by simp [RemoveTimer])
    exact ⟨rfl, rfl, h.1, h.2⟩
  · intro id hid
    exact erased now r id hid
  · intro i id t hi hu
    have hq : id ∈ (OnTick Update now r).1.invalidTimers := by
      have := tickLoop_queues Update now 0 i (eraseInvalid r.invalidTimers r.timers) id t hi
        (by simpa using hu)
      simpa [OnTick] using this
    have hin : id ∈ mapKeys (OnTick Update now r).1.timers := by
      rw [(OnTick_keys Update now r).1]
      simp only [mapKeys, List.mem_map]
      exact ⟨(id, t), List.getElem?_mem hi, rfl⟩
    have h := erased now2 (OnTick Update now r).1 id hq
    exact ⟨hq, hin, h.1, h.2⟩

theorem timer_removal_deferred_witness :
    mapKeys oneShotResource.timers = [1]
    ∧ 1 ∈ (OnTick Timer.Update (fun _ => 150) oneShotResource).1.invalidTimers
    ∧ 1 ∈ mapKeys (OnTick Timer.Update (fun _ => 150) oneShotResource).1.timers
    ∧ 1 ∉ mapKeys (OnTick Timer.Update (fun _ => 200)
        (OnTick Timer.Update (fun _ => 150) oneShotResource).1).1.timers
    ∧ 1 ∉ (OnTick Timer.Update (fun _ => 200)
        (OnTick Timer.Update (fun _ => 150) oneShotResource).1).2 :=
  ⟨by decide,
   (timer_removal_deferred Timer.Update (fun _ => 150) (fun _ => 200) oneShotResource).2.2.2
     0 1 ⟨5, 100, 0, true⟩ (by decide) (by decide)⟩

/-! ## `Start` and `Stop` -/

/-- `Stop` returns false exactly on its early return: module and context are set, the
script has a stop function, and preparing it reports an engine error. -/
theorem Stop_false_iff (s : Script) (r : AngelScriptResource) :
    (Stop s r).1 = false
      ↔ r.module ≠ none ∧ r.context ≠ none
        ∧ ∃ f, s.functionByDecl "void Stop()" = some f ∧ s.prepare f < 0 := by
  unfold Stop stopScript
  by_cases hm : r.module = none
  · simp [hm]
  · cases hf : s.functionByDecl "void Stop()" with
    | none => simp [hm]
    | some f =>
      by_cases hc : r.context = none
      · simp [hm, hc]
      · by_cases hp : CHECK_AS_RETURN (s.prepare f) = true
        · have := (check_true_iff _).1 hp
          simp [hm, hc, hp, this]
        · have hp' : ¬ s.prepare f < 0 := fun h => hp ((check_true_iff _).2 h)
          simp [hm, hc, hp, hp']

/-- Whenever `Stop` returns true it has gone through the whole teardown: its trace
ends with the release of the context, of every event handler and of the type
descriptors, after the module, if set, was discarded. -/
theorem Stop_true_teardown (s : Script) (r : AngelScriptResource) (h : (Stop s r).1 = true) :
    ∃ calls, (Stop s r).2.2 = calls ++ stopRelease (Stop s r).2.1
      ∧ (r.module ≠ none → Call.Discard r.module ∈ calls) := by
  unfold Stop at h ⊢
  by_cases hb : (stopScript s r).1 = true
  · simp [hb] at h
  · simp only [hb, if_false]
    refine ⟨(stopScript s r).2.2, rfl, ?_⟩
    intro hm
    unfold stopScript at hb ⊢
    cases hf : s.functionByDecl "void Stop()" with
    | none => simp [hm]
    | some f =>
      by_cases hc : r.context = none
      · simp [hm, hc]
      · by_cases hp : CHECK_AS_RETURN (s.prepare f) = true
        · simp [hm, hc, hp, hf] at hb
        · have hmod := runActions_module (s.actions f) r
          simp [hm, hc, hp, hmod]

/-- C2 is violated by the code: on a running resource whose script has a `void Stop()`
function, when `Prepare` of that function reports an engine error, `Stop` returns
false right after the failed `Prepare`; the module is not discarded, the context is
not released, the bound event callback is not released and no type descriptor is
released. -/
theorem Stop_prepare_failure_skips_teardown :
    (Start builderOk (scriptStartStop (-1)) {}).1 = true
    ∧ (Start builderOk (scriptStartStop (-1)) {}).2.1.eventHandlers = [(7, 10)]
    ∧ Stop (scriptStartStop (-1)) (Start builderOk (scriptStartStop (-1)) {}).2.1
        = (false, (Start builderOk (scriptStartStop (-1)) {}).2.1,
            [Call.GetFunctionByDecl (some 1) "void Stop()", Call.Prepare (some 2) 2])
    ∧ (Stop (scriptStartStop 0) (Start builderOk (scriptStartStop 0) {}).2.1).2.2
        = [Call.GetFunctionByDecl (some 1) "void Stop()", Call.Prepare (some 2) 2,
           Call.Execute (some 2), Call.Discard (some 1), Call.ContextRelease (some 2),
           Call.FuncRelease 10, Call.TypeInfoRelease (some 11),
           Call.TypeInfoRelease (some 12), Call.TypeInfoRelease (some 13),
           Call.TypeInfoRelease (some 14)] := by
  decide

/-- C3 is violated by the code: when `Start` fails because the entrypoint is not
found, it discards the module and releases the context but leaves both pointers set;
the following `Stop` looks up the stop function on the discarded module, discards it
a second time and releases the released context a second time. -/
theorem Stop_after_entrypoint_not_found :
    (Start builderOk scriptNoEntry {}).1 = false
    ∧ (Start builderOk scriptNoEntry {}).2.1.module = some 1
    ∧ (Start builderOk scriptNoEntry {}).2.1.context = some 2
    ∧ destroyed (Start builderOk scriptNoEntry {}).2.2 = [Obj.module 1, Obj.context 2]
    ∧ (Stop scriptNoEntry (Start builderOk scriptNoEntry {}).2.1).2.2
        = [Call.GetFunctionByDecl (some 1) "void Stop()", Call.Discard (some 1),
           Call.ContextRelease (some 2)]
    ∧ safeTrace (destroyed (Start builderOk scriptNoEntry {}).2.2)
        (Stop scriptNoEntry (Start builderOk scriptNoEntry {}).2.1).2.2 = false := by
  decide

/-- C4 is violated by the code: after a successful `Start`, which adds one reference to
each of the four array type descriptors, a `Stop` that leaves on the failed `Prepare`
of the stop function releases none of them: one `AddRef` and no `Release` per
handle over the cycle. -/
theorem typeinfo_refs_unbalanced :
    (Start builderOk (scriptStartStop (-1)) {}).1 = true
    ∧ ∀ t ∈ [11, 12, 13, 14],
        List.count (Call.TypeInfoAddRef (some t))
          ((Start builderOk (scriptStartStop (-1)) {}).2.2
            ++ (Stop (scriptStartStop (-1))
                (Start builderOk (scriptStartStop (-1)) {}).2.1).2.2) = 1
        ∧ List.count (Call.TypeInfoRelease (some t))
          ((Start builderOk (scriptStartStop (-1)) {}).2.2
            ++ (Stop (scriptStartStop (-1))
                (Start builderOk (scriptStartStop (-1)) {}).2.1).2.2) = 0 := by
  decide

theorem runActions_typeInfos (as : List ScriptAction) (r : AngelScriptResource) :
    UnregisterTypeInfos (runActions r as) = UnregisterTypeInfos r := by
  induction as generalizing r with
  | nil => rfl
  | cons a as ih =>
    show UnregisterTypeInfos (runActions (a.apply r) as) = UnregisterTypeInfos r
    rw [ih]
    cases a <;> rfl

theorem safeTrace_append (dead : List Obj) (a c : List Call) :
    safeTrace dead (a ++ c)
      = (safeTrace dead a && safeTrace ((destroyed a).reverse ++ dead) c) := by
  induction a generalizing dead with
  | nil => simp [safeTrace, destroyed]
  | cons x a ih =>
    cases hx : x.destroys with
    | none =>
      simp [safeTrace, destroyed, hx, ih, Bool.and_assoc]
    | some o =>
      simp [safeTrace, destroyed, hx, ih, Bool.and_assoc]

theorem safeTrace_funcRelease (dead : List Obj) (l : List (EventType × Func)) :
    safeTrace dead (l.map (fun pair => Call.FuncRelease pair.2)) = true := by
  induction l generalizing dead with
  | nil => rfl
  | cons p l ih => simp [safeTrace, Call.receiver, Call.destroys, ih]

theorem destroyed_funcRelease (l : List (EventType × Func)) :
    destroyed (l.map (fun pair => Call.FuncRelease pair.2)) = [] := by
  induction l with
  | nil => rfl
  | cons p l ih => simp [destroyed, Call.destroys]

theorem safeTrace_releaseIfSet (dead : List Obj) (p : Option Handle) (rest : List Call)
    (hdead : ∀ t, Obj.typeInfo t ∉ dead) :
    safeTrace dead (releaseIfSet p ++ rest) = safeTrace dead rest := by
  cases p with
  | none => simp [releaseIfSet]
  | some t => simp [releaseIfSet, safeTrace, Call.receiver, Call.destroys, hdead t]

/-- The release part of `Stop` is safe as long as neither the context it releases nor
any type descriptor was destroyed before. -/
theorem safeTrace_stopRelease (dead : List Obj) (r : AngelScriptResource)
    (hctx : ∀ c, r.context = some c → Obj.context c ∉ dead)
    (hty : ∀ t, Obj.typeInfo t ∉ dead) :
    safeTrace dead (stopRelease r) = true := by
  have hty' : ∀ (d : List Obj), (∀ t, Obj.typeInfo t ∉ d) →
      safeTrace d (UnregisterTypeInfos r) = true := by
    intro d hd
    unfold UnregisterTypeInfos
    rw [List.append_assoc, List.append_assoc, safeTrace_releaseIfSet d _ _ hd,
      safeTrace_releaseIfSet d _ _ hd, safeTrace_releaseIfSet d _ _ hd]
    have := safeTrace_releaseIfSet d r.arrayAnyTypeInfo [] hd
    simpa [safeTrace] using this
  unfold stopRelease
  cases hc : r.context with
  | none =>
    simp only [ne_eq, not_true_eq_false, if_false, List.nil_append]
    rw [safeTrace_append, safeTrace_funcRelease, destroyed_funcRelease]
    simpa using hty' dead hty
  | some c =>
    have hnot : Obj.context c ∉ dead := hctx c hc
    have hd : ∀ t, Obj.typeInfo t ∉ Obj.context c :: dead := by
      intro t hmem
      rcases List.mem_cons.1 hmem with h | h
      · cases h
      · exact hty t h
    have hlist : (if some c ≠ none then [Call.ContextRelease (some c)] else [])
          ++ r.eventHandlers.map (fun pair => Call.FuncRelease pair.2)
          ++ UnregisterTypeInfos r
        = Call.ContextRelease (some c)
          :: (r.eventHandlers.map (fun pair => Call.FuncRelease pair.2)
              ++ UnregisterTypeInfos r) := by
      simp
    rw [hlist]
    have hcons : safeTrace dead (Call.ContextRelease (some c)
          :: (r.eventHandlers.map (fun pair => Call.FuncRelease pair.2)
              ++ UnregisterTypeInfos r))
        = (!(dead.contains (Obj.context c))
          && safeTrace (Obj.context c :: dead)
            (r.eventHandlers.map (fun pair => Call.FuncRelease pair.2)
              ++ UnregisterTypeInfos r)) := rfl
    rw [hcons, safeTrace_append, safeTrace_funcRelease, destroyed_funcRelease]
    simpa [hnot] using hty' _ hd

/-- Every step of `Stop` is guarded: on any resource, as long as no object was
destroyed beforehand, `Stop` touches no null pointer and no destroyed object. -/
theorem Stop_safe_of_nothing_destroyed (s : Script) (r : AngelScriptResource) :
    safeTrace [] (Stop s r).2.2 = true := by
  have rel : ∀ q : AngelScriptResource, safeTrace [] (stopRelease q) = true :=
    fun q => safeTrace_stopRelease [] q (by simp) (by simp)
  have relm : ∀ (q : AngelScriptResource) (m : Handle),
      safeTrace [Obj.module m] (stopRelease q) = true :=
    fun q m => safeTrace_stopRelease [Obj.module m] q (by simp) (by simp)
  unfold Stop stopScript
  cases hm : r.module with
  | none => simpa using rel r
  | some m =>
    cases hf : s.functionByDecl "void Stop()" with
    | none =>
      simpa [safeTrace, Call.receiver, Call.destroys] using relm r m
    | some f =>
      cases hc : r.context with
      | none => simpa [safeTrace, Call.receiver, Call.destroys] using relm r m
      | some c =>
        by_cases hp : CHECK_AS_RETURN (s.prepare f) = true
        · simp [hp, safeTrace, Call.receiver, Call.destroys]
        · simpa [hp, safeTrace, Call.receiver, Call.destroys, runActions_module, hm]
            using relm (runActions r (s.actions f)) m

theorem Start_false_destroys_nothing (b : Builder) (s : Script) (r : AngelScriptResource)
    (hfail : (Start b s r).1 = false) (hentry : s.functionByDecl "void Start()" ≠ none) :
    destroyed (Start b s r).2.2 = [] := by
  unfold Start at hfail ⊢
  by_cases h1 : CHECK_AS_RETURN b.startNewModule = true
  · simp [h1, destroyed, Call.destroys]
  by_cases h2 : CHECK_AS_RETURN b.addSectionFromMemory = true
  · simp [h1, h2, destroyed, Call.destroys]
  by_cases h3 : CHECK_AS_RETURN b.buildModule = true
  · simp [h1, h2, h3, destroyed, Call.destroys]
  cases hf : s.functionByDecl "void Start()" with
  | none => exact absurd hf hentry
  | some f =>
    by_cases hp : CHECK_AS_RETURN (s.prepare f) = true
    · simp [h1, h2, h3, hp, hf, RegisterMetadata, destroyed, Call.destroys]
    · simp [h1, h2, h3, hp, hf, RegisterMetadata] at hfail

/-- On every failing path of `Start` other than the missing entrypoint (a builder step
fails, or preparing the entry function fails) the following `Stop` is safe: it
touches no null pointer and no destroyed object. -/
theorem Stop_safe_after_other_Start_failures (b : Builder) (s : Script)
    (r : AngelScriptResource) (hfail : (Start b s r).1 = false)
    (hentry : s.functionByDecl "void Start()" ≠ none) :
    safeTrace (destroyed (Start b s r).2.2) (Stop s (Start b s r).2.1).2.2 = true := by
  rw [Start_false_destroys_nothing b s r hfail hentry]
  exact Stop_safe_of_nothing_destroyed s _

theorem count_funcRelease (c : Call) (l : List (EventType × Func))
    (hc : ∀ f, c ≠ Call.FuncRelease f) :
    List.count c (l.map (fun pair => Call.FuncRelease pair.2)) = 0 := by
  rw [List.count_eq_zero]
  intro hmem
  rcases List.mem_map.1 hmem with ⟨p, _, hp⟩
  exact hc p.2 hp.symm

theorem count_addRef_unregister (t : Handle) (r : AngelScriptResource) :
    List.count (Call.TypeInfoAddRef (some t)) (UnregisterTypeInfos r) = 0 := by
  rw [List.count_eq_zero]
  intro hmem
  simp only [UnregisterTypeInfos, releaseIfSet, List.mem_append] at hmem
  rcases hmem with ((h | h) | h) | h <;> split at h <;> simp at h

theorem count_stopRelease (t : Handle) (r : AngelScriptResource) :
    List.count (Call.TypeInfoAddRef (some t)) (stopRelease r) = 0
    ∧ List.count (Call.TypeInfoRelease (some t)) (stopRelease r)
        = List.count (Call.TypeInfoRelease (some t)) (UnregisterTypeInfos r) := by
  have hA : ∀ f, Call.TypeInfoAddRef (some t) ≠ Call.FuncRelease f := by intro f h; cases h
  have hR : ∀ f, Call.TypeInfoRelease (some t) ≠ Call.FuncRelease f := by intro f h; cases h
  unfold stopRelease
  cases r.context <;>
    simp [List.count_append, List.count_cons, count_funcRelease _ _ hA,
      count_funcRelease _ _ hR, count_addRef_unregister]

/-- The type-descriptor calls of a `Stop` that returns true are exactly the releases
of `UnregisterTypeInfos` on the resource it was called on. -/
theorem Stop_true_counts (s : Script) (r : AngelScriptResource) (t : Handle)
    (h : (Stop s r).1 = true) :
    List.count (Call.TypeInfoAddRef (some t)) (Stop s r).2.2 = 0
    ∧ List.count (Call.TypeInfoRelease (some t)) (Stop s r).2.2
        = List.count (Call.TypeInfoRelease (some t)) (UnregisterTypeInfos r) := by
  have rel := count_stopRelease t
  unfold Stop stopScript at h ⊢
  cases hm : r.module with
  | none => simpa using rel r
  | some m =>
    cases hf : s.functionByDecl "void Stop()" with
    | none => simpa [List.count_cons] using rel r
    | some f =>
      cases hc : r.context with
      | none => simpa [List.count_cons] using rel r
      | some c =>
        by_cases hp : CHECK_AS_RETURN (s.prepare f) = true
        · simp [hm, hf, hc, hp] at h
        · have := rel (runActions r (s.actions f))
          rw [runActions_typeInfos] at this
          simpa [hp, List.count_cons] using this

theorem count_registerTypeInfos (s : Script) (r : AngelScriptResource) (t : Handle) :
    List.count (Call.TypeInfoAddRef (some t)) (RegisterTypeInfos s r).2
      = List.count (Call.TypeInfoRelease (some t))
          (UnregisterTypeInfos (RegisterTypeInfos s r).1)
    ∧ List.count (Call.TypeInfoRelease (some t)) (RegisterTypeInfos s r).2 = 0 := by
  have one : ∀ p : Option Handle,
      List.count (Call.TypeInfoRelease (some t)) (releaseIfSet p)
        = if p = some t then 1 else 0 := by
    intro p
    cases p with
    | none => simp [releaseIfSet]
    | some q =>
      by_cases hq : q = t
      · simp [releaseIfSet, hq]
      · have : ¬ t = q := fun h => hq h.symm
        simp [releaseIfSet, hq, this]
  refine ⟨?_, ?_⟩
  · simp only [RegisterTypeInfos, UnregisterTypeInfos, List.count_append, one,
      List.count_cons, List.count_nil]
    simp only [beq_iff_eq, Call.TypeInfoAddRef.injEq, reduceCtorEq, if_false, Nat.add_zero,
      Nat.zero_add]
    omega
  · simp [RegisterTypeInfos, List.count_cons]

/-- Whenever `Start` succeeds and the following `Stop` returns true, every type
descriptor handle sees as many `Release` calls as `AddRef` calls over the cycle. -/
theorem typeinfo_refs_balanced_of_Stop_true (b : Builder) (s : Script)
    (r : AngelScriptResource) (t : Handle)
    (hstart : (Start b s r).1 = true) (hstop : (Stop s (Start b s r).2.1).1 = true) :
    List.count (Call.TypeInfoAddRef (some t))
        ((Start b s r).2.2 ++ (Stop s (Start b s r).2.1).2.2)
      = List.count (Call.TypeInfoRelease (some t))
        ((Start b s r).2.2 ++ (Stop s (Start b s r).2.1).2.2) := by
  have hs := Stop_true_counts s (Start b s r).2.1 t hstop
  rw [List.count_append, List.count_append, hs.1, hs.2]
  unfold Start at hstart ⊢
  by_cases h1 : CHECK_AS_RETURN b.startNewModule = true
  · simp [h1] at hstart
  by_cases h2 : CHECK_AS_RETURN b.addSectionFromMemory = true
  · simp [h1, h2] at hstart
  by_cases h3 : CHECK_AS_RETURN b.buildModule = true
  · simp [h1, h2, h3] at hstart
  cases hf : s.functionByDecl "void Start()" with
  | none => simp [h1, h2, h3, hf, RegisterMetadata] at hstart
  | some f =>
    by_cases hp : CHECK_AS_RETURN (s.prepare f) = true
    · simp [h1, h2, h3, hp, hf, RegisterMetadata] at hstart
    · have hc := count_registerTypeInfos s (runActions (attach b r) (s.actions f)) t
      simp only [h1, h2, h3, hp, hf, RegisterMetadata, if_false, List.count_append,
        hc.1, hc.2]
      simp [List.count_cons]
      omega

end AngelScript
